import Mathlib

/-!
Verification of the `CanvasMap` grid visualization and gesture engine
(`src/components/ProjectManagement.tsx`, component `CanvasMap`).

The component renders positioned tables on a pannable, zoomable canvas and
resolves clicks into `onTableClick` activations.  JavaScript numbers are
modelled by exact rationals (`ℚ`); the one irrational quantity the source
computes, `Math.hypot` of the two touch contacts, is carried as the datum of
the two-contact touch event (the handlers use the contacts only through that
distance), so every definition stays executable and decidable.
-/

namespace CanvasMap

/-- A 2-D point (screen or logical coordinates), exact-rational model of the
JavaScript number pairs used by the source. -/
structure Point where
  x : ℚ
  y : ℚ
deriving DecidableEq, Repr

/-- `TableStatus` from `types.ts`: `Pending = 0, Completed = 1, Issue = 2`. -/
inductive TableStatus where
  | Pending
  | Completed
  | Issue
deriving DecidableEq, Repr

/-- `TableType` from `types.ts`: `Small = 'S', Medium = 'M', Large = 'L'`. -/
inductive TableType where
  | Small
  | Medium
  | Large
deriving DecidableEq, Repr

/-- The string value of a `TableType` member, as drawn by `ctx.fillText(table.type, ...)`. -/
def TableType.str : TableType → String
  | .Small => "S"
  | .Medium => "M"
  | .Large => "L"

/-- The fields of interface `Table` (`types.ts`) that the engine reads,
plus the bookkeeping fields `projectId`/`index` for completeness. -/
structure Table where
  id : String
  projectId : String
  index : Nat
  type : TableType
  status : TableStatus
  x : ℚ
  y : ℚ
deriving DecidableEq, Repr

/-- `const TABLE_WIDTH = 45` (the spec calls this `CELL_WIDTH`). -/
def TABLE_WIDTH : ℚ := 45

/-- `const TABLE_HEIGHT = 25` (the spec calls this `CELL_HEIGHT`). -/
def TABLE_HEIGHT : ℚ := 25

/-- `const GAP = 15`. -/
def GAP : ℚ := 15

/-- The React state of `CanvasMap`: `scale`, `offset`, `isDragging`,
`dragStart` and `lastTouchDistance`, exactly the five `useState` hooks. -/
structure CanvasMapState where
  scale : ℚ
  offset : Point
  isDragging : Bool
  dragStart : Point
  lastTouchDistance : Option ℚ
deriving DecidableEq, Repr

/-- The initial state: `useState(1)`, `useState({x: 50, y: 50})`,
`useState(false)`, `useState({x: 0, y: 0})`, `useState<number|null>(null)`. -/
def initState : CanvasMapState :=
  { scale := 1
    offset := ⟨50, 50⟩
    isDragging := false
    dragStart := ⟨0, 0⟩
    lastTouchDistance := none }

/-- `handleMouseDown`: start dragging, anchor `dragStart = client − offset`. -/
def handleMouseDown (p : Point) (s : CanvasMapState) : CanvasMapState :=
  { s with isDragging := true
           dragStart := ⟨p.x - s.offset.x, p.y - s.offset.y⟩ }

/-- `handleMouseMove`: while dragging, `offset = client − dragStart`. -/
def handleMouseMove (p : Point) (s : CanvasMapState) : CanvasMapState :=
  if s.isDragging then
    { s with offset := ⟨p.x - s.dragStart.x, p.y - s.dragStart.y⟩ }
  else s

/-- `handleMouseUp`: stop dragging. -/
def handleMouseUp (s : CanvasMapState) : CanvasMapState :=
  { s with isDragging := false }

/-- `handleWheel`: `delta = -deltaY * 0.001`, then
`scale := Math.min(Math.max(scale + delta, 0.2), 5)`.  The offset is not
touched. -/
def handleWheel (deltaY : ℚ) (s : CanvasMapState) : CanvasMapState :=
  let delta := -deltaY * (1 / 1000)
  { s with scale := min (max (s.scale + delta) (1 / 5)) 5 }

/-- The shape of a touch event as the handlers consume it: they branch on
`e.touches.length` and, in the two-contact case, use the contacts only
through `Math.hypot(dx, dy)`.  That Euclidean inter-contact distance is
irrational in general, so it is the datum of the `two` case here (for the
concrete scenarios the contacts are axis-aligned and the distance exact). -/
inductive TouchPayload where
  | one (p : Point)
  | two (dist : ℚ)
  | other
deriving DecidableEq, Repr

/-- `handleTouchStart`: one contact starts a drag with the same anchor as the
mouse path; two contacts stop dragging and record the inter-contact
distance; any other contact count falls through. -/
def handleTouchStart (t : TouchPayload) (s : CanvasMapState) : CanvasMapState :=
  match t with
  | .one p =>
      { s with isDragging := true
               dragStart := ⟨p.x - s.offset.x, p.y - s.offset.y⟩ }
  | .two dist =>
      { s with isDragging := false
               lastTouchDistance := some dist }
  | .other => s

/-- `handleTouchMove`: one contact pans while dragging; two contacts pinch
when `lastTouchDistance` is truthy (JavaScript: `null` and `0` are falsy),
with `zoomFactor = (dist − lastTouchDistance) * 0.005` and the same clamp as
the wheel path.  The offset is not touched by the pinch branch. -/
def handleTouchMove (t : TouchPayload) (s : CanvasMapState) : CanvasMapState :=
  match t with
  | .one p =>
      if s.isDragging then
        { s with offset := ⟨p.x - s.dragStart.x, p.y - s.dragStart.y⟩ }
      else s
  | .two dist =>
      match s.lastTouchDistance with
      | none => s
      | some d0 =>
          if d0 = 0 then s
          else
            let delta := dist - d0
            let zoomFactor := delta * (5 / 1000)
            { s with scale := min (max (s.scale + zoomFactor) (1 / 5)) 5
                     lastTouchDistance := some dist }
  | .other => s

/-- `handleTouchEnd`: stop dragging, forget the pinch distance. -/
def handleTouchEnd (s : CanvasMapState) : CanvasMapState :=
  { s with isDragging := false
           lastTouchDistance := none }

/-- The zoom-in button: `setScale(s => Math.min(s + 0.2, 5))`. -/
def zoomInBtn (s : CanvasMapState) : CanvasMapState :=
  { s with scale := min (s.scale + 1 / 5) 5 }

/-- The zoom-out button: `setScale(s => Math.max(s - 0.2, 0.2))`. -/
def zoomOutBtn (s : CanvasMapState) : CanvasMapState :=
  { s with scale := max (s.scale - 1 / 5) (1 / 5) }

/-- `resetView`: scale 1, offset `(50, 50)`. -/
def resetView (s : CanvasMapState) : CanvasMapState :=
  { s with scale := 1, offset := ⟨50, 50⟩ }

/-- The drawing surface as the handlers see it: the bounding rectangle
origin used by `handleClick`, the canvas dimensions, whether
`getContext('2d')` returned a context, and whether `ctx.roundRect` exists. -/
structure CanvasInfo where
  rectLeft : ℚ
  rectTop : ℚ
  width : ℚ
  height : ℚ
  ctx : Bool
  hasRoundRect : Bool
deriving DecidableEq, Repr

/-- The containment test of `handleClick`: with `tx = t.x * (TABLE_WIDTH + GAP)`
and `ty = t.y * (TABLE_HEIGHT + GAP)`, the click is inside when
`tx ≤ clickX ≤ tx + TABLE_WIDTH` and `ty ≤ clickY ≤ ty + TABLE_HEIGHT`. -/
def inRect (clickX clickY : ℚ) (t : Table) : Bool :=
  let tx := t.x * (TABLE_WIDTH + GAP)
  let ty := t.y * (TABLE_HEIGHT + GAP)
  decide (tx ≤ clickX) && decide (clickX ≤ tx + TABLE_WIDTH) &&
  decide (ty ≤ clickY) && decide (clickY ≤ ty + TABLE_HEIGHT)

/-- The core of `handleClick` once the canvas is known: inverse-transform the
click to logical space and `tables.find(...)` the first containing table. -/
def hitAt (cv : CanvasInfo) (tables : List Table) (scale : ℚ) (offset : Point)
    (p : Point) : Option String :=
  let clickX := (p.x - cv.rectLeft - offset.x) / scale
  let clickY := (p.y - cv.rectTop - offset.y) / scale
  (tables.find? (inRect clickX clickY)).map Table.id

/-- `handleClick`: bail out while dragging or when the canvas ref is null;
otherwise hit-test and return the id handed to `onTableClick` (if any). -/
def handleClick (cv? : Option CanvasInfo) (tables : List Table) (p : Point)
    (s : CanvasMapState) : Option String :=
  if s.isDragging then none
  else
    match cv? with
    | none => none
    | some cv => hitAt cv tables s.scale s.offset p

/-- The browser events the component subscribes to, plus the three transform
buttons.  A `click` arrives after the corresponding `mouseUp` (React flushes
the `mouseUp` state update before the `click` handler runs). -/
inductive Event where
  | mouseDown (p : Point)
  | mouseMove (p : Point)
  | mouseUp
  | wheel (deltaY : ℚ)
  | click (p : Point)
  | touchStart (t : TouchPayload)
  | touchMove (t : TouchPayload)
  | touchEnd
  | zoomIn
  | zoomOut
  | reset
deriving DecidableEq, Repr

/-- Whether an event is one of the three touch events. -/
def Event.isTouch : Event → Bool
  | .touchStart _ => true
  | .touchMove _ => true
  | .touchEnd => true
  | _ => false

/-- One event step: the next state together with the activation (the argument
of the `onTableClick` callback) the step emits, if any.  Only `handleClick`
ever emits. -/
def step (cv? : Option CanvasInfo) (tables : List Table) (s : CanvasMapState) :
    Event → CanvasMapState × Option String
  | .mouseDown p => (handleMouseDown p s, none)
  | .mouseMove p => (handleMouseMove p s, none)
  | .mouseUp => (handleMouseUp s, none)
  | .wheel d => (handleWheel d s, none)
  | .click p => (s, handleClick cv? tables p s)
  | .touchStart t => (handleTouchStart t s, none)
  | .touchMove t => (handleTouchMove t s, none)
  | .touchEnd => (handleTouchEnd s, none)
  | .zoomIn => (zoomInBtn s, none)
  | .zoomOut => (zoomOutBtn s, none)
  | .reset => (resetView s, none)

/-- Run a sequence of events, collecting the emitted activations in order. -/
def run (cv? : Option CanvasInfo) (tables : List Table) :
    CanvasMapState → List Event → CanvasMapState × List String
  | s, [] => (s, [])
  | s, e :: es =>
      let r := step cv? tables s e
      let rest := run cv? tables r.1 es
      (rest.1, r.2.toList ++ rest.2)

/-- The forward view transform realized by the renderer
(`ctx.translate(offset.x, offset.y); ctx.scale(scale, scale)`): a logical
point `L` lands on screen at `offset + scale · L`. -/
def screenOf (scale : ℚ) (offset : Point) (L : Point) : Point :=
  ⟨offset.x + scale * L.x, offset.y + scale * L.y⟩

/-- The inverse transform used by `handleClick` (with the bounding rectangle
at the origin): `(p − offset) / scale`. -/
def logicalOf (scale : ℚ) (offset : Point) (p : Point) : Point :=
  ⟨(p.x - offset.x) / scale, (p.y - offset.y) / scale⟩

/-- The canvas primitives `draw` issues, fully applied with their style
state (`fillStyle`, `strokeStyle`, `lineWidth`) so a command list determines
the drawing.  `strokeGrid` is the one `beginPath … stroke` pass over all grid
lines; `checkmark` and `exclamation` stand for the fixed-shape glyph paths of
`drawCheckmark` / `drawExclamation`, which are deterministic in `(x, y, size)`;
`fillText` always uses alignment `left` / baseline `top` as the source sets. -/
inductive DrawCmd where
  | clearRect (x y w h : ℚ)
  | fillRect (style : String) (x y w h : ℚ)
  | strokeGrid (style : String) (xs ys : List ℚ) (w h : ℚ)
  | save
  | translate (dx dy : ℚ)
  | scaleCtx (k : ℚ)
  | restore
  | roundRectPath (fill stroke : String) (lw x y w h r : ℚ)
  | rectPath (fill stroke : String) (lw x y w h : ℚ)
  | fillText (style font text : String) (x y : ℚ)
  | checkmark (x y size : ℚ)
  | exclamation (x y size : ℚ)
  | strokeCircle (style : String) (lw cx cy r : ℚ)
deriving DecidableEq, Repr

/-- JavaScript truncating division (the quotient `%` is built on): toward
zero. -/
def jsTrunc (q : ℚ) : ℤ :=
  if 0 ≤ q then ⌊q⌋ else ⌈q⌉

/-- The JavaScript remainder `a % b`: `a − b · trunc(a / b)` (for `b ≠ 0`;
the `b = 0` NaN case cannot arise since `gridSize = 50 · scale > 0` in every
reachable state). -/
def jsMod (a b : ℚ) : ℚ :=
  a - b * jsTrunc (a / b)

/-- The positions visited by `for (let x = start; x < limit; x += step)` for
`step > 0` (the only way `draw` calls it, since `gridSize > 0`). -/
def loopPositions (start limit step : ℚ) : List ℚ :=
  (List.range (Int.toNat ⌈(limit - start) / step⌉)).map fun k => start + step * k

/-- The status-dependent colors of `draw`: `(fillColor, strokeColor,
shadowColor)`, defaulting to the `Pending` palette. -/
def statusColors : TableStatus → String × String × String
  | .Completed => ("#dcfce7", "#22c55e", "rgba(34, 197, 94, 0.2)")
  | .Issue => ("#fee2e2", "#ef4444", "rgba(239, 68, 68, 0.2)")
  | .Pending => ("#ffffff", "#94a3b8", "rgba(0,0,0,0.05)")

/-- `const drawX = table.x * (TABLE_WIDTH + GAP)` inside `draw`. -/
def drawX (t : Table) : ℚ := t.x * (TABLE_WIDTH + GAP)

/-- `const drawY = table.y * (TABLE_HEIGHT + GAP)` inside `draw`. -/
def drawY (t : Table) : ℚ := t.y * (TABLE_HEIGHT + GAP)

/-- The per-table body of `draw`: shadow, main rectangle (`ctx.roundRect`
when available, else `ctx.rect`), type label, and the status icon. -/
def tableCmds (hasRoundRect : Bool) (t : Table) : List DrawCmd :=
  let colors := statusColors t.status
  let lw : ℚ := if t.status = .Pending then 1 else 2
  [DrawCmd.fillRect colors.2.2 (drawX t + 3) (drawY t + 3) TABLE_WIDTH TABLE_HEIGHT,
   if hasRoundRect then
     DrawCmd.roundRectPath colors.1 colors.2.1 lw (drawX t) (drawY t)
       TABLE_WIDTH TABLE_HEIGHT 4
   else
     DrawCmd.rectPath colors.1 colors.2.1 lw (drawX t) (drawY t)
       TABLE_WIDTH TABLE_HEIGHT,
   DrawCmd.fillText "#64748b" "bold 10px sans-serif" t.type.str
     (drawX t + 4) (drawY t + 4)] ++
  (match t.status with
   | .Completed =>
       [DrawCmd.checkmark (drawX t + TABLE_WIDTH - 16) (drawY t + TABLE_HEIGHT - 16) 14]
   | .Issue =>
       [DrawCmd.exclamation (drawX t + TABLE_WIDTH - 16) (drawY t + TABLE_HEIGHT - 16) 14]
   | .Pending =>
       [DrawCmd.strokeCircle "#cbd5e1" 1 (drawX t + TABLE_WIDTH - 8)
          (drawY t + TABLE_HEIGHT - 8) 3])

/-- `draw(exportMode)`: null canvas or null context is a silent no-op;
otherwise clear the full canvas, paint the opaque background in export mode,
stroke the grid at spacing `gridSize = 50 · scale` starting at
`offset % gridSize`, then draw every table under
`translate(offset); scale(scale)`. -/
def draw (cv? : Option CanvasInfo) (tables : List Table) (scale : ℚ)
    (offset : Point) (exportMode : Bool) : List DrawCmd :=
  match cv? with
  | none => []
  | some cv =>
      if cv.ctx then
        let gridSize := 50 * scale
        [DrawCmd.clearRect 0 0 cv.width cv.height] ++
        (if exportMode then [DrawCmd.fillRect "#ffffff" 0 0 cv.width cv.height]
         else []) ++
        [DrawCmd.strokeGrid (if exportMode then "#e2e8f0" else "rgba(0,0,0,0.05)")
           (loopPositions (jsMod offset.x gridSize) cv.width gridSize)
           (loopPositions (jsMod offset.y gridSize) cv.height gridSize)
           cv.width cv.height] ++
        [DrawCmd.save, DrawCmd.translate offset.x offset.y, DrawCmd.scaleCtx scale] ++
        tables.flatMap (tableCmds cv.hasRoundRect) ++
        [DrawCmd.restore]
      else []

/-- The pixel-relevant state of the drawing surface, abstracted as the
commands applied since the last full-canvas clear: `clearRect(0, 0, width,
height)` erases everything, every other command deterministically extends the
picture. -/
abbrev Surface := List DrawCmd

/-- Apply one command to the surface of canvas `cv`. -/
def applyCmd (cv : CanvasInfo) (s : Surface) (c : DrawCmd) : Surface :=
  match c with
  | .clearRect a b w h =>
      if a = 0 ∧ b = 0 ∧ w = cv.width ∧ h = cv.height then ([] : List DrawCmd)
      else s ++ [c]
  | _ => s ++ [c]

/-- Apply a command list to the surface, in order. -/
def exec (cv : CanvasInfo) (s : Surface) (cmds : List DrawCmd) : Surface :=
  cmds.foldl (applyCmd cv) s

/-- The placement rectangle exactly as the spec documents the `rectFor`
contract: `x = logicalX * (CELL_WIDTH + GAP)`, `y = logicalY *
(CELL_HEIGHT + GAP)`, fixed width and height, with `CELL_WIDTH = 45`,
`CELL_HEIGHT = 25`, `GAP = 15` (spec-side definition, to be compared with
the source's formulas). -/
def rectForSpec (t : Table) : ℚ × ℚ × ℚ × ℚ :=
  (t.x * (45 + 15), t.y * (25 + 15), 45, 25)

/-- Test fixture: the canvas as mounted (`width={800} height={600}`), with its
bounding rectangle at the viewport origin and a working 2-D context. -/
def cv0 : CanvasInfo :=
  { rectLeft := 0, rectTop := 0, width := 800, height := 600,
    ctx := true, hasRoundRect := true }

/-- Test fixture: a pending table at grid coordinate `(0, 0)`. -/
def t1 : Table :=
  { id := "t1", projectId := "p1", index := 0, type := .Small,
    status := .Pending, x := 0, y := 0 }

/-- Test fixture: a table at grid coordinate `(0, 0)` with id `a`. -/
def ta : Table :=
  { id := "a", projectId := "p1", index := 0, type := .Small,
    status := .Pending, x := 0, y := 0 }

/-- Test fixture: a second table at the same grid coordinate, id `b`. -/
def tb : Table :=
  { id := "b", projectId := "p1", index := 1, type := .Small,
    status := .Pending, x := 0, y := 0 }

/-- Structure equality on points, componentwise. -/
lemma Point.eq_iff (p q : Point) : p = q ↔ p.x = q.x ∧ p.y = q.y := by
  cases p
  cases q
  simp

/-- C10: every wheel zoom event and every two-finger pinch move updates only
the scale component of the view transform; both offset components are exactly
unchanged. -/
theorem zoom_offset_unchanged (s : CanvasMapState) (deltaY d : ℚ) :
    (handleWheel deltaY s).offset = s.offset ∧
    (handleTouchMove (.two d) s).offset = s.offset := by
  constructor
  · rfl
  · cases hd : s.lastTouchDistance with
    | none => simp [handleTouchMove, hd]
    | some d0 =>
        simp only [handleTouchMove, hd]
        split
        · rfl
        · rfl

/-- C5: the rectangle used both for drawing and for hit-testing is
`x = logicalX * (CELL_WIDTH + GAP)`, `y = logicalY * (CELL_HEIGHT + GAP)` with
fixed width `CELL_WIDTH = 45` and height `CELL_HEIGHT = 25` (and `GAP = 15`);
the renderer's `drawX`/`drawY` and main rectangle command and the hit tester's
containment test all agree with that formula. -/
theorem placement_formula_shared (t : Table) (cx cy : ℚ) :
    drawX t = (rectForSpec t).1 ∧
    drawY t = (rectForSpec t).2.1 ∧
    TABLE_WIDTH = (rectForSpec t).2.2.1 ∧
    TABLE_HEIGHT = (rectForSpec t).2.2.2 ∧
    GAP = 15 ∧
    (inRect cx cy t = true ↔
      ((rectForSpec t).1 ≤ cx ∧ cx ≤ (rectForSpec t).1 + (rectForSpec t).2.2.1 ∧
       (rectForSpec t).2.1 ≤ cy ∧ cy ≤ (rectForSpec t).2.1 + (rectForSpec t).2.2.2)) ∧
    DrawCmd.roundRectPath (statusColors t.status).1 (statusColors t.status).2.1
      (if t.status = TableStatus.Pending then 1 else 2)
      (rectForSpec t).1 (rectForSpec t).2.1 (rectForSpec t).2.2.1
      (rectForSpec t).2.2.2 4 ∈ tableCmds true t := by
  refine ⟨?_, ?_, ?_, ?_, ?_, ?_, ?_⟩
  · simp [drawX, rectForSpec, TABLE_WIDTH, GAP]
  · simp [drawY, rectForSpec, TABLE_HEIGHT, GAP]
  · simp [TABLE_WIDTH, rectForSpec]
  · simp [TABLE_HEIGHT, rectForSpec]
  · simp [GAP]
  · simp [inRect, rectForSpec, TABLE_WIDTH, TABLE_HEIGHT, GAP, and_assoc]
  · simp [tableCmds, rectForSpec, TABLE_WIDTH, TABLE_HEIGHT, GAP, drawX, drawY]

/-- Both scale bounds are preserved by every single event step. -/
lemma step_scale_bounds (cv? : Option CanvasInfo) (tables : List Table)
    (s : CanvasMapState) (e : Event) (h1 : 1 / 5 ≤ s.scale) (h2 : s.scale ≤ 5) :
    1 / 5 ≤ (step cv? tables s e).1.scale ∧ (step cv? tables s e).1.scale ≤ 5 := by
  cases e with
  | mouseDown p => exact ⟨h1, h2⟩
  | mouseMove p =>
      simp only [step, handleMouseMove]
      split
      · exact ⟨h1, h2⟩
      · exact ⟨h1, h2⟩
  | mouseUp => exact ⟨h1, h2⟩
  | wheel d =>
      refine ⟨le_min (le_max_right _ _) (by norm_num), min_le_right _ _⟩
  | click p => exact ⟨h1, h2⟩
  | touchStart t => cases t <;> exact ⟨h1, h2⟩
  | touchMove t =>
      cases t with
      | one p =>
          simp only [step, handleTouchMove]
          split
          · exact ⟨h1, h2⟩
          · exact ⟨h1, h2⟩
      | two dist =>
          simp only [step, handleTouchMove]
          cases s.lastTouchDistance with
          | none => exact ⟨h1, h2⟩
          | some d0 =>
              simp only []
              split
              · exact ⟨h1, h2⟩
              · exact ⟨le_min (le_max_right _ _) (by norm_num), min_le_right _ _⟩
      | other => exact ⟨h1, h2⟩
  | touchEnd => exact ⟨h1, h2⟩
  | zoomIn =>
      refine ⟨le_min (by linarith) (by norm_num), min_le_right _ _⟩
  | zoomOut =>
      refine ⟨le_max_right _ _, max_le (by linarith) (by norm_num)⟩
  | reset => exact ⟨by norm_num [step, resetView], by norm_num [step, resetView]⟩

/-- Both scale bounds are preserved by every event sequence. -/
lemma run_scale_bounds (cv? : Option CanvasInfo) (tables : List Table)
    (evs : List Event) :
    ∀ s : CanvasMapState, 1 / 5 ≤ s.scale → s.scale ≤ 5 →
      1 / 5 ≤ (run cv? tables s evs).1.scale ∧ (run cv? tables s evs).1.scale ≤ 5 := by
  induction evs with
  | nil => intro s h1 h2; exact ⟨h1, h2⟩
  | cons e es ih =>
      intro s h1 h2
      have hb := step_scale_bounds cv? tables s e h1 h2
      simpa [run] using ih _ hb.1 hb.2

/-- C4: for every sequence of inputs (wheel deltas, pinch moves, pans, taps,
zoom-in / zoom-out button presses, reset) applied from the initial state, the
resulting scale stays within `[0.2, 5.0]`. -/
theorem scale_always_clamped (cv? : Option CanvasInfo) (tables : List Table)
    (evs : List Event) :
    1 / 5 ≤ (run cv? tables initState evs).1.scale ∧
    (run cv? tables initState evs).1.scale ≤ 5 :=
  run_scale_bounds cv? tables evs initState (by norm_num [initState])
    (by norm_num [initState])

/-- C6: two contacts recorded at inter-contact distance 100 that move to
distance 150 with pinch sensitivity 0.005 change the scale to
`clamp(scale + (150 − 100) · 0.005) = clamp(scale + 0.25)`; when the old scale
leaves room below the 5.0 bound (and is at least the 0.2 bound), the increase
is exactly 0.25. -/
theorem pinch_scenario_quarter (s : CanvasMapState)
    (h1 : 1 / 5 ≤ s.scale) (h2 : s.scale ≤ 19 / 4) :
    (∀ s2 : CanvasMapState,
      (handleTouchMove (.two 150) (handleTouchStart (.two 100) s2)).scale
        = min (max (s2.scale + 1 / 4) (1 / 5)) 5) ∧
    (handleTouchMove (.two 150) (handleTouchStart (.two 100) s)).scale
      = s.scale + 1 / 4 := by
  have hgen : ∀ s2 : CanvasMapState,
      (handleTouchMove (.two 150) (handleTouchStart (.two 100) s2)).scale
        = min (max (s2.scale + 1 / 4) (1 / 5)) 5 := by
    intro s2
    norm_num [handleTouchStart, handleTouchMove]
  refine ⟨hgen, ?_⟩
  rw [hgen s, max_eq_left (by linarith), min_eq_left (by linarith)]

/-- Witness for C6 from the initial state: scale 1 becomes exactly 1.25. -/
theorem pinch_scenario_quarter_witness :
    (1 / 5 : ℚ) ≤ initState.scale ∧ initState.scale ≤ 19 / 4 ∧
    (handleTouchMove (.two 150) (handleTouchStart (.two 100) initState)).scale
      = initState.scale + 1 / 4 :=
  ⟨by norm_num [initState], by norm_num [initState],
   (pinch_scenario_quarter initState (by norm_num [initState])
     (by norm_num [initState])).2⟩

/-- An all-touch event sequence emits no activation. -/
lemma run_touch_only_no_taps (cv? : Option CanvasInfo) (tables : List Table)
    (evs : List Event) :
    ∀ s : CanvasMapState, (∀ e ∈ evs, e.isTouch = true) →
      (run cv? tables s evs).2 = [] := by
  induction evs with
  | nil => intro s _; rfl
  | cons e es ih =>
      intro s h
      have he := h e (by simp)
      have hes : ∀ e2 ∈ es, e2.isTouch = true := fun e2 m => h e2 (by simp [m])
      cases e with
      | touchStart t => simpa [run, step] using ih _ hes
      | touchMove t => simpa [run, step] using ih _ hes
      | touchEnd => simpa [run, step] using ih _ hes
      | mouseDown p => simp [Event.isTouch] at he
      | mouseMove p => simp [Event.isTouch] at he
      | mouseUp => simp [Event.isTouch] at he
      | wheel d => simp [Event.isTouch] at he
      | click p => simp [Event.isTouch] at he
      | zoomIn => simp [Event.isTouch] at he
      | zoomOut => simp [Event.isTouch] at he
      | reset => simp [Event.isTouch] at he

/-- C7: a second contact cancels any in-progress pan without emitting a tap, a
transition out of two contacts (`touchend`) emits no tap, and more generally
an event sequence consisting only of touch events emits no `onTableClick`
activation at all — even if the last contact lifts near its start point. -/
theorem pinch_never_taps (cv? : Option CanvasInfo) (tables : List Table)
    (s : CanvasMapState) (d : ℚ) (evs : List Event)
    (h : ∀ e ∈ evs, e.isTouch = true) :
    (step cv? tables s (.touchStart (.two d))).2 = none ∧
    ((step cv? tables s (.touchStart (.two d))).1).isDragging = false ∧
    (step cv? tables s .touchEnd).2 = none ∧
    ((step cv? tables s .touchEnd).1).isDragging = false ∧
    (run cv? tables s evs).2 = [] :=
  ⟨rfl, rfl, rfl, rfl, run_touch_only_no_taps cv? tables evs s h⟩

/-- Witness for C7 at a concrete pinch session: second finger lands at
distance 100, moves to 150, then all contacts lift — no activation. -/
theorem pinch_never_taps_witness :
    (step (some cv0) [t1] initState (.touchStart (.two 100))).2 = none ∧
    ((step (some cv0) [t1] initState (.touchStart (.two 100))).1).isDragging = false ∧
    (step (some cv0) [t1] initState .touchEnd).2 = none ∧
    ((step (some cv0) [t1] initState .touchEnd).1).isDragging = false ∧
    (run (some cv0) [t1] initState
        [.touchStart (.two 100), .touchMove (.two 150), .touchEnd]).2 = [] :=
  pinch_never_taps (some cv0) [t1] initState 100
    [.touchStart (.two 100), .touchMove (.two 150), .touchEnd]
    (by intro e m; fin_cases m <;> rfl)

/-- A command list opening with a full-canvas clear lands on the same surface
from any starting surface. -/
lemma exec_fullclear (cv : CanvasInfo) (s : Surface) (rest : List DrawCmd) :
    exec cv s (DrawCmd.clearRect 0 0 cv.width cv.height :: rest)
      = exec cv ([] : Surface) rest := by
  simp [exec, applyCmd]

/-- With a live context, `draw` opens with the full-canvas `clearRect`. -/
lemma draw_head (cv : CanvasInfo) (tables : List Table) (sc : ℚ) (off : Point)
    (em : Bool) (hc : cv.ctx = true) :
    ∃ rest, draw (some cv) tables sc off em
      = DrawCmd.clearRect 0 0 cv.width cv.height :: rest := by
  refine ⟨(draw (some cv) tables sc off em).tail, ?_⟩
  simp [draw, hc]

/-- C8: the render pass is deterministic in `(entities, transform, mode)` —
it is a pure function of them here — and running the same pass twice leaves
the surface in exactly the state of the first pass, because the pass opens by
clearing the whole canvas. -/
theorem render_idempotent (cv : CanvasInfo) (tables : List Table) (sc : ℚ)
    (off : Point) (em : Bool) (surf : Surface) :
    exec cv (exec cv surf (draw (some cv) tables sc off em))
        (draw (some cv) tables sc off em)
      = exec cv surf (draw (some cv) tables sc off em) := by
  by_cases hc : cv.ctx = true
  · obtain ⟨rest, hr⟩ := draw_head cv tables sc off em hc
    rw [hr, exec_fullclear, exec_fullclear]
  · have hd : draw (some cv) tables sc off em = [] := by
      simp [draw, Bool.eq_false_iff.mpr hc]
    rw [hd]
    rfl

/-- C1 (counterexample): a wheel tick of `deltaY = −100` at focal screen point
`(100, 50)` from the initial state changes the scale to `1.1` (well inside the
policy bounds), yet the logical point that was under `(100, 50)` now lands at
`(105, 50)` — five pixels away, not a floating-point tolerance.  The source
never recomputes the offset on zoom. -/
theorem wheel_zoom_not_focal_cex :
    (handleWheel (-100) initState).scale = 11 / 10 ∧
    (1 / 5 : ℚ) ≤ 11 / 10 ∧ (11 / 10 : ℚ) ≤ 5 ∧
    screenOf (handleWheel (-100) initState).scale (handleWheel (-100) initState).offset
      (logicalOf initState.scale initState.offset ⟨100, 50⟩) = ⟨105, 50⟩ ∧
    (⟨105, 50⟩ : Point) ≠ (⟨100, 50⟩ : Point) := by
  refine ⟨?_, by norm_num, by norm_num, ?_, ?_⟩
  · norm_num [handleWheel, initState, min_def, max_def]
  · norm_num [handleWheel, initState, screenOf, logicalOf, min_def, max_def,
      Point.eq_iff]
  · norm_num [Point.eq_iff]

/-- Rescaling to any new scale `k` around an unchanged offset keeps the
logical point previously under the screen point `p` at `p` exactly when
`k` equals the old scale or `p` is the offset point itself. -/
lemma scale_only_focal_iff (s : CanvasMapState) (k : ℚ) (p : Point)
    (hs : s.scale ≠ 0) :
    screenOf k s.offset (logicalOf s.scale s.offset p) = p ↔
      (k = s.scale ∨ p = s.offset) := by
  have key : ∀ a b : ℚ, b + k * ((a - b) / s.scale) = a ↔
      (k - s.scale) * (a - b) = 0 := by
    intro a b
    constructor
    · intro h
      have hmul : (k - s.scale) * (a - b)
          = s.scale * (b + k * ((a - b) / s.scale) - a) := by
        field_simp
        ring
      rw [hmul, h]
      simp
    · intro hz
      rcases mul_eq_zero.mp hz with h3 | h3
      · have hks : k = s.scale := by linarith
        rw [hks]
        field_simp
      · have hab : a = b := by linarith
        rw [hab]
        simp
  have key2 : ∀ a b : ℚ, b + k * ((a - b) / s.scale) = a ↔
      (k = s.scale ∨ a = b) := by
    intro a b
    rw [key a b, mul_eq_zero, sub_eq_zero, sub_eq_zero]
  rw [Point.eq_iff]
  simp only [screenOf, logicalOf]
  rw [key2 p.x s.offset.x, key2 p.y s.offset.y, Point.eq_iff]
  tauto

/-- The two-contact pinch branch never moves the offset. -/
lemma touchMove_two_offset (s : CanvasMapState) (d : ℚ) :
    (handleTouchMove (.two d) s).offset = s.offset := by
  cases hd : s.lastTouchDistance with
  | none => simp [handleTouchMove, hd]
  | some d0 =>
      simp only [handleTouchMove, hd]
      split
      · rfl
      · rfl

/-- C1 (amended): both zoom inputs — a wheel tick and a two-contact pinch
move — leave the offset unchanged and rescale around the offset point, so
the logical point previously under the focal screen point `p` still maps to
`p` exactly when the clamped scale did not change or `p` is the offset point
itself; focal invariance fails for every other focal point. -/
theorem zoom_scale_only_focal_iff (s : CanvasMapState) (deltaY d : ℚ)
    (p : Point) (hs : s.scale ≠ 0) :
    (handleWheel deltaY s).offset = s.offset ∧
    (handleTouchMove (.two d) s).offset = s.offset ∧
    (screenOf (handleWheel deltaY s).scale (handleWheel deltaY s).offset
        (logicalOf s.scale s.offset p) = p ↔
      (handleWheel deltaY s).scale = s.scale ∨ p = s.offset) ∧
    (screenOf (handleTouchMove (.two d) s).scale
        (handleTouchMove (.two d) s).offset
        (logicalOf s.scale s.offset p) = p ↔
      (handleTouchMove (.two d) s).scale = s.scale ∨ p = s.offset) := by
  have hoffW : (handleWheel deltaY s).offset = s.offset := rfl
  have hoffP := touchMove_two_offset s d
  refine ⟨hoffW, hoffP, ?_, ?_⟩
  · rw [hoffW]
    exact scale_only_focal_iff s _ p hs
  · rw [hoffP]
    exact scale_only_focal_iff s _ p hs

/-- Witness for the amended C1 at the initial state, a wheel tick of
`deltaY = −100`, and a pinch move to distance 150. -/
theorem zoom_scale_only_focal_iff_witness :
    initState.scale ≠ 0 ∧
    ((handleWheel (-100) initState).offset = initState.offset ∧
     (handleTouchMove (.two 150) initState).offset = initState.offset ∧
     (screenOf (handleWheel (-100) initState).scale
        (handleWheel (-100) initState).offset
        (logicalOf initState.scale initState.offset ⟨100, 50⟩) = ⟨100, 50⟩ ↔
      (handleWheel (-100) initState).scale = initState.scale ∨
        (⟨100, 50⟩ : Point) = initState.offset) ∧
     (screenOf (handleTouchMove (.two 150) initState).scale
        (handleTouchMove (.two 150) initState).offset
        (logicalOf initState.scale initState.offset ⟨100, 50⟩) = ⟨100, 50⟩ ↔
      (handleTouchMove (.two 150) initState).scale = initState.scale ∨
        (⟨100, 50⟩ : Point) = initState.offset)) :=
  ⟨by norm_num [initState],
   zoom_scale_only_focal_iff initState (-100) 150 ⟨100, 50⟩
     (by norm_num [initState])⟩

/-- C2 (counterexample): a pointer that goes down at `(70, 60)`, drags 200
pixels to `(70, 260)` and releases there still produces exactly one
`onTableClick` activation (for the table panned under the release point) — the
source has no `DRAG_THRESHOLD`, so a movement far beyond any tap radius does
not suppress the activation the claim says it must. -/
theorem drag_beyond_any_threshold_still_taps_cex :
    (run (some cv0) [t1] initState
        [.mouseDown ⟨70, 60⟩, .mouseMove ⟨70, 260⟩, .mouseUp, .click ⟨70, 260⟩]).2
      = ["t1"] ∧
    ((260 : ℚ) - 60 = 200) := by
  refine ⟨?_, by norm_num⟩
  norm_num [run, step, handleMouseDown, handleMouseMove, handleMouseUp,
    handleClick, hitAt, inRect, initState, cv0, t1,
    TABLE_WIDTH, TABLE_HEIGHT, GAP, List.find?]

/-- C2 (amended): there is no movement threshold: a down/move/up/click
sequence emits exactly the hit-test result at the release point under the
panned transform — one activation when a table contains the point, none
otherwise — for every movement distance. -/
theorem click_activation_ignores_movement (cv : CanvasInfo) (tables : List Table)
    (s : CanvasMapState) (p q r : Point) :
    (run (some cv) tables s [.mouseDown p, .mouseMove q, .mouseUp, .click r]).2
      = (hitAt cv tables s.scale
          ⟨q.x - (p.x - s.offset.x), q.y - (p.y - s.offset.y)⟩ r).toList := by
  simp [run, step, handleMouseDown, handleMouseMove, handleMouseUp, handleClick]

/-- C3 (counterexample): with two tables supplied at the same grid coordinate
`(0, 0)`, a click whose inverse-transformed point lies in both rectangles
returns the FIRST table in iteration order (`"a"`), not the last (`"b"`) as
the claim requires — the source uses `tables.find(...)`. -/
theorem hit_overlap_returns_first_cex :
    inRect (((70 : ℚ) - cv0.rectLeft - initState.offset.x) / initState.scale)
      (((60 : ℚ) - cv0.rectTop - initState.offset.y) / initState.scale) ta = true ∧
    inRect (((70 : ℚ) - cv0.rectLeft - initState.offset.x) / initState.scale)
      (((60 : ℚ) - cv0.rectTop - initState.offset.y) / initState.scale) tb = true ∧
    handleClick (some cv0) [ta, tb] ⟨70, 60⟩ initState = some "a" ∧
    handleClick (some cv0) [ta, tb] ⟨70, 60⟩ initState ≠ some tb.id := by
  have hfind : handleClick (some cv0) [ta, tb] ⟨70, 60⟩ initState = some "a" := by
    norm_num [handleClick, hitAt, inRect, initState, cv0, ta, tb,
      TABLE_WIDTH, TABLE_HEIGHT, GAP, List.find?]
  refine ⟨?_, ?_, hfind, ?_⟩
  · norm_num [inRect, initState, cv0, ta, TABLE_WIDTH, TABLE_HEIGHT, GAP]
  · norm_num [inRect, initState, cv0, tb, TABLE_WIDTH, TABLE_HEIGHT, GAP]
  · rw [hfind]
    simp [tb]

/-- C3 (amended): for every supplied collection, the hit test returns the
FIRST entity in iteration order whose rectangle contains the
inverse-transformed point: whenever the collection splits as
`pre ++ u :: post` with no entity of `pre` containing the point and `u`
containing it, the result is `u` — wherever `u` sits and regardless of how
many entities of `post` also contain the point.  In particular, with two or
more containing entities the first one wins, not the last. -/
theorem hit_first_tiebreak (cv : CanvasInfo) (pre post : List Table)
    (s : CanvasMapState) (p : Point) (u : Table)
    (hdrag : s.isDragging = false)
    (hpre : ∀ w ∈ pre, inRect ((p.x - cv.rectLeft - s.offset.x) / s.scale)
              ((p.y - cv.rectTop - s.offset.y) / s.scale) w = false)
    (hu : inRect ((p.x - cv.rectLeft - s.offset.x) / s.scale)
            ((p.y - cv.rectTop - s.offset.y) / s.scale) u = true) :
    handleClick (some cv) (pre ++ u :: post) p s = some u.id := by
  have hfind : ∀ pre2 : List Table,
      (∀ w ∈ pre2, inRect ((p.x - cv.rectLeft - s.offset.x) / s.scale)
          ((p.y - cv.rectTop - s.offset.y) / s.scale) w = false) →
      (pre2 ++ u :: post).find?
          (inRect ((p.x - cv.rectLeft - s.offset.x) / s.scale)
            ((p.y - cv.rectTop - s.offset.y) / s.scale)) = some u := by
    intro pre2
    induction pre2 with
    | nil =>
        intro _
        simpa using List.find?_cons_of_pos _ hu
    | cons a l ih =>
        intro h2
        have ha := h2 a (by simp)
        have hl : ∀ w ∈ l, inRect ((p.x - cv.rectLeft - s.offset.x) / s.scale)
            ((p.y - cv.rectTop - s.offset.y) / s.scale) w = false :=
          fun w m => h2 w (by simp [m])
        rw [List.cons_append, List.find?_cons_of_neg _ (by simp [ha])]
        exact ih hl
  simp [handleClick, hdrag, hitAt, hfind pre hpre]

/-- Test fixture: a table at grid coordinate `(5, 5)`, away from the click. -/
def tw : Table :=
  { id := "w", projectId := "p1", index := 2, type := .Small,
    status := .Pending, x := 5, y := 5 }

/-- Witness for the amended C3: a non-containing table first, then two tables
whose rectangles both contain the click point — the first containing one
(`"a"`) wins. -/
theorem hit_first_tiebreak_witness :
    initState.isDragging = false ∧
    (∀ w ∈ [tw], inRect
      (((⟨70, 60⟩ : Point).x - cv0.rectLeft - initState.offset.x) / initState.scale)
      (((⟨70, 60⟩ : Point).y - cv0.rectTop - initState.offset.y) / initState.scale)
      w = false) ∧
    inRect (((⟨70, 60⟩ : Point).x - cv0.rectLeft - initState.offset.x) / initState.scale)
      (((⟨70, 60⟩ : Point).y - cv0.rectTop - initState.offset.y) / initState.scale)
      ta = true ∧
    inRect (((⟨70, 60⟩ : Point).x - cv0.rectLeft - initState.offset.x) / initState.scale)
      (((⟨70, 60⟩ : Point).y - cv0.rectTop - initState.offset.y) / initState.scale)
      tb = true ∧
    handleClick (some cv0) ([tw] ++ ta :: [tb]) ⟨70, 60⟩ initState = some ta.id :=
  ⟨rfl,
   by
     intro w m
     rw [List.mem_singleton.mp m]
     norm_num [inRect, initState, cv0, tw, TABLE_WIDTH, TABLE_HEIGHT, GAP],
   by norm_num [inRect, initState, cv0, ta, TABLE_WIDTH, TABLE_HEIGHT, GAP],
   by norm_num [inRect, initState, cv0, tb, TABLE_WIDTH, TABLE_HEIGHT, GAP],
   hit_first_tiebreak cv0 [tw] [tb] initState ⟨70, 60⟩ ta rfl
     (by
       intro w m
       rw [List.mem_singleton.mp m]
       norm_num [inRect, initState, cv0, tw, TABLE_WIDTH, TABLE_HEIGHT, GAP])
     (by norm_num [inRect, initState, cv0, ta, TABLE_WIDTH, TABLE_HEIGHT, GAP])⟩

/-- C9 (counterexample): with a null canvas the render pass is indeed a no-op,
but `handleClick` also returns early, so a click over a table that WOULD hit
with a live canvas resolves to no activation — hit-testing does not "still
function" as the claim says. -/
theorem null_canvas_hit_dead_cex :
    draw none [t1] initState.scale initState.offset false = [] ∧
    handleClick none [t1] ⟨70, 60⟩ initState = none ∧
    handleClick (some cv0) [t1] ⟨70, 60⟩ initState = some "t1" := by
  refine ⟨rfl, ?_, ?_⟩
  · simp [handleClick, initState]
  · norm_num [handleClick, hitAt, inRect, initState, cv0, t1,
      TABLE_WIDTH, TABLE_HEIGHT, GAP, List.find?]

/-- C9 (amended): a null canvas or null 2-D context makes the render pass a
silent no-op; a null canvas also disables click hit-testing (it returns no
activation), while a null context alone leaves hit-testing untouched, and the
pan/zoom gesture handlers never consult the canvas at all. -/
theorem null_surface_noop (cv : CanvasInfo) (tables : List Table) (sc : ℚ)
    (off : Point) (em : Bool) (p : Point) (s : CanvasMapState) (d : ℚ)
    (tp : TouchPayload) :
    draw none tables sc off em = [] ∧
    draw (some { cv with ctx := false }) tables sc off em = [] ∧
    handleClick none tables p s = none ∧
    handleClick (some { cv with ctx := false }) tables p s
      = handleClick (some { cv with ctx := true }) tables p s ∧
    (step none tables s (.mouseDown p)).1 = handleMouseDown p s ∧
    (step none tables s (.mouseMove p)).1 = handleMouseMove p s ∧
    (step none tables s (.wheel d)).1 = handleWheel d s ∧
    (step none tables s (.touchStart tp)).1 = handleTouchStart tp s ∧
    (step none tables s (.touchMove tp)).1 = handleTouchMove tp s := by
  refine ⟨rfl, by simp [draw], ?_, ?_, rfl, rfl, rfl, rfl, rfl⟩
  · by_cases h : s.isDragging <;> simp [handleClick, h]
  · by_cases h : s.isDragging <;> simp [handleClick, h, hitAt]

end CanvasMap
